import Mathlib

/-!
Verification development for the crowdworker-simulation environment
(`task.py`, `user.py`, `userenv.py`): a shallow embedding of the data model
and of the operations `Task.receive_answer`, `Task.give_new_instance`,
`Task.is_active`, `UserModelEnv.step`, `UserModelEnv.create_observation`,
`UserModelEnv.reset` and `UserModelEnv.seed`, followed by theorems about
reachability invariants, determinism, branch contracts and the observation
encoding.

Python floats are embedded as rationals (`ℚ`); Python ints as `ℤ`/`ℕ`.
`numpy.random.Generator` is an external library, so it is modelled as a
deterministic pseudo-random state machine: a 64-bit linear-congruential
state with draws (`random`, `integers`, `beta`, `shuffle`) derived from it.
All claims settled here depend only on the generator being a deterministic
function of its state, never on the distribution of its values.
-/

namespace CrowdSim

/-- Model of `numpy.random.Generator`: a deterministic 64-bit state. -/
structure Rng where
  state : ℕ
  deriving DecidableEq

/-- One step of the modelled generator (a 64-bit linear-congruential update). -/
def Rng.next (r : Rng) : ℕ × Rng :=
  let s := (r.state * 6364136223846793005 + 1442695040888963407) % 18446744073709551616
  (s, ⟨s⟩)

/-- Model of `Generator.random()`: a rational in `[0, 1)` derived from the state. -/
def Rng.random (r : Rng) : ℚ × Rng :=
  let p := r.next
  (((p.1 % 1048576 : ℕ) : ℚ) / 1048576, p.2)

/-- Model of `Generator.integers(low, high)`: a draw in `[low, high)`. -/
def Rng.integers (r : Rng) (low high : ℕ) : ℕ × Rng :=
  let p := r.next
  (low + p.1 % (high - low), p.2)

/-- Model of `Generator.beta(a, b)`: a generator-consuming draw in `[0, 1)`.
The beta shape parameters only influence the distribution, which is external
library behaviour; no claim depends on it. -/
def Rng.beta (r : Rng) (_a _b : ℚ) : ℚ × Rng := r.random

/-- Rotate a list left by `k` positions (a permutation of the list). -/
def rotateBy (k : ℕ) (l : List α) : List α := l.drop k ++ l.take k

/-- Model of `Generator.shuffle`: an rng-chosen rotation, i.e. an
rng-dependent permutation of the input.  The specific permutation numpy
produces is external library behaviour; no claim depends on it. -/
def Rng.shuffle (r : Rng) (l : List ℕ) : List ℕ × Rng :=
  let p := r.next
  (rotateBy (p.1 % (l.length + 1)) l, p.2)

/-- Model of `numpy.random.default_rng(seed)`. -/
def Rng.default_rng (seed : ℕ) : Rng := ⟨seed % 18446744073709551616⟩

/-- `Instance` from `task.py`: a question with a true label and the label
assigned by the worker. -/
structure Instance where
  true_label : ℕ
  label : Option ℕ := none
  deriving DecidableEq

/-- `TaskProperties` from `task.py`.  `num_classes` is fixed to 10 by the
constructor. -/
structure TaskProperties where
  payout : ℚ
  expertise : ℚ
  effort : ℚ
  interestingness : ℚ
  target_num_instances : ℚ
  num_classes : ℕ := 10
  deriving DecidableEq

/-- `AntiCheatSettings` from `task.py`. -/
structure AntiCheatSettings where
  qa_false_max : ℤ
  qa_mode_prob : ℚ
  reputation_punishment : ℚ
  reputation_bonus : ℚ
  min_reputation : ℚ
  deriving DecidableEq

/-- The `TaskPropertiesDistribution` class hierarchy of `task.py` as a closed
tagged-variant type: the plain beta variant, the custom-parameterized beta
variant, and the fixed-value variant. -/
inductive TaskPropertiesDistribution where
  | beta
  | customBeta (payout expertise effort interestingness target_num_instances : ℚ × ℚ)
      (target_num_instances_scale : ℚ)
  | customFixed (payout expertise effort interestingness : ℚ) (target_num_instances : ℚ)
  deriving DecidableEq

/-- `create_properties` of the three distribution variants, threading the
generator in the evaluation order of the Python keyword arguments. -/
def TaskPropertiesDistribution.create_properties :
    TaskPropertiesDistribution → Rng → TaskProperties × Rng
  | .beta, r =>
    let p := r.beta 10 10
    let ex := p.2.beta 40 10
    let ef := ex.2.beta 10 10
    let it := ef.2.beta 10 10
    let tn := it.2.beta 10 10
    ({ payout := p.1, expertise := ex.1, effort := ef.1,
       interestingness := it.1 - 0.5, target_num_instances := tn.1 * 100 }, tn.2)
  | .customBeta pa exb efb itb tnb scale, r =>
    let p := r.beta pa.1 pa.2
    let ex := p.2.beta exb.1 exb.2
    let ef := ex.2.beta efb.1 efb.2
    let it := ef.2.beta itb.1 itb.2
    let tn := it.2.beta tnb.1 tnb.2
    ({ payout := p.1, expertise := ex.1, effort := ef.1,
       interestingness := it.1 - 0.5, target_num_instances := tn.1 * scale }, tn.2)
  | .customFixed pa ex ef it tn, r =>
    ({ payout := pa, expertise := ex, effort := ef,
       interestingness := it - 0.5, target_num_instances := tn }, r)

/-- `UserProperties` from `user.py`; `random_answer_time`,
`intentional_answer_time` and `switch_task_time` default to the constructor
constants 0.1, 1 and 1. -/
structure UserProperties where
  interestingness_sensitivity : ℚ
  payout_sensitivity : ℚ
  time_sensitivity : ℚ
  time_budget : ℚ
  start_reputation : ℚ
  random_answer_time : ℚ := 0.1
  intentional_answer_time : ℚ := 1
  switch_task_time : ℚ := 1
  deriving DecidableEq

/-- The two modes a task can be in once `give_new_instance` ran:
`Task.QUALITY_CONTROL_MODE = 0` and `Task.LABEL_MODE = 1`. -/
inductive Mode where
  | quality_control
  | label
  deriving DecidableEq

/-- `Task` from `task.py`.  `mode = none` models Python's `None` before the
first `give_new_instance`. -/
structure Task where
  properties : TaskProperties
  anti_cheat_settings : AntiCheatSettings
  mode : Option Mode := none
  current_instance : Option Instance := none
  instance_counter : ℕ := 0
  real_instance_counter : ℕ := 0
  qa_false_counter : ℕ := 0
  last_response_type : String := "not-set"
  deriving DecidableEq

/-- `Task.receive_answer`.  `none` models an uncaught Python exception: the
`assert self.mode is not None` failure, or the `AttributeError` from reading
`self.current_instance.true_label` when no instance was ever drawn.  On
success it returns the reputation delta and the updated task; the worker's
reputation itself is not part of `Task` and is applied by the caller. -/
def Task.receive_answer (t : Task) (answer : ℕ) : Option (ℚ × Task) :=
  match t.mode, t.current_instance with
  | none, _ => none
  | some _, none => none
  | some m, some inst =>
    let t1 := { t with instance_counter := t.instance_counter + 1 }
    match m with
    | .quality_control =>
      if answer ≠ inst.true_label then
        some (t.anti_cheat_settings.reputation_punishment,
          { t1 with qa_false_counter := t1.qa_false_counter + 1,
                    last_response_type := "qa_incorrect" })
      else
        some (t.anti_cheat_settings.reputation_bonus,
          { t1 with last_response_type := "qa_correct" })
    | .label =>
      let t2 := { t1 with real_instance_counter := t1.real_instance_counter + 1 }
      if answer ≠ inst.true_label then
        some (0, { t2 with last_response_type := "incorrect" })
      else
        some (0, { t2 with last_response_type := "correct" })

/-- `Task.get_next_known_answer_instance`: a fresh instance with a uniformly
drawn true label in `[0, num_classes)`. -/
def Task.get_next_known_answer_instance (t : Task) (random : Rng) : Instance × Rng :=
  let p := random.integers 0 t.properties.num_classes
  ({ true_label := p.1 }, p.2)

/-- `Task.get_next_unlabeled_instance` delegates to
`get_next_known_answer_instance` in the source. -/
def Task.get_next_unlabeled_instance (t : Task) (random : Rng) : Instance × Rng :=
  t.get_next_known_answer_instance random

/-- `Task.give_new_instance`: with probability `qa_mode_prob` enter
quality-control mode, otherwise label mode, and replace the current
instance. -/
def Task.give_new_instance (t : Task) (random : Rng) : Task × Rng :=
  let p := random.random
  if p.1 < t.anti_cheat_settings.qa_mode_prob then
    let q := t.get_next_known_answer_instance p.2
    ({ t with mode := some .quality_control, current_instance := some q.1 }, q.2)
  else
    let q := t.get_next_unlabeled_instance p.2
    ({ t with mode := some .label, current_instance := some q.1 }, q.2)

/-- `Task.is_active`: the conjunction of the three activity conditions. -/
def Task.is_active (t : Task) (current_user_reputation : ℚ) : Prop :=
  (t.real_instance_counter : ℚ) < t.properties.target_num_instances ∧
  (t.qa_false_counter : ℤ) < t.anti_cheat_settings.qa_false_max ∧
  t.anti_cheat_settings.min_reputation ≤ current_user_reputation

instance (t : Task) (r : ℚ) : Decidable (t.is_active r) := by
  unfold Task.is_active; infer_instance

/-- Python's clamping idiom `max(0, min(1, x))`. -/
def clamp01 (x : ℚ) : ℚ := max 0 (min 1 x)

/-- Python list indexing `l[i]`, including negative-index semantics:
`l[-k]` addresses the element `len(l) - k`; out-of-range indices raise and
are modelled by `none`. -/
def pyGet (l : List α) (i : ℤ) : Option α :=
  if 0 ≤ i then l.get? i.toNat
  else if 0 ≤ i + (l.length : ℤ) then l.get? (i + (l.length : ℤ)).toNat
  else none

/-- The position a Python index `i` resolves to inside `l` (meaningful when
`pyGet l i` succeeds). -/
def pyIdx (l : List α) (i : ℤ) : ℕ :=
  if 0 ≤ i then i.toNat else (i + (l.length : ℤ)).toNat

/-- The `info` mapping returned by `step`: empty, or carrying `end_reason`
on termination. -/
structure Info where
  end_reason : Option String := none
  deriving DecidableEq

/-- `UserModelEnv` from `userenv.py`.  The `config` and gym-space fields do
not influence any modelled behaviour and are omitted.  `random` is `None`
until `seed` in the source; every claim concerns post-`seed` states, so it
is embedded as a plain generator whose pre-`seed` value is unobservable. -/
structure UserModelEnv where
  user_properties : UserProperties
  tasks_properties_distributions : List TaskPropertiesDistribution
  anti_cheat_settings : AntiCheatSettings
  user_reputation : ℚ
  tasks : List Task
  task_task_dist_map : List ℕ
  last_action : Option ℤ
  current_instance : Option Instance
  current_task_idx : ℤ
  overall_time_spent : ℚ
  random : Rng
  deriving DecidableEq

/-- Action index constant `ACTION_QUIT = 0`. -/
def UserModelEnv.ACTION_QUIT : ℤ := 0

/-- Action index constant `ACTION_ANS_RND = 1` (answer negligently). -/
def UserModelEnv.ACTION_ANS_RND : ℤ := 1

/-- Action index constant `ACTION_ANS_INTENT = 2` (answer diligently). -/
def UserModelEnv.ACTION_ANS_INTENT : ℤ := 2

/-- Action index constant `SWITCH_TASK0 = 3`. -/
def UserModelEnv.SWITCH_TASK0 : ℤ := 3

/-- `num_tasks`, set in `__init__` from the number of task-givers. -/
def UserModelEnv.num_tasks (e : UserModelEnv) : ℕ :=
  e.tasks_properties_distributions.length

/-- The `__init__` state of `UserModelEnv` (before `seed` and `reset`). -/
def UserModelEnv.init (up : UserProperties) (ds : List TaskPropertiesDistribution)
    (acs : AntiCheatSettings) : UserModelEnv :=
  { user_properties := up
    tasks_properties_distributions := ds
    anti_cheat_settings := acs
    user_reputation := -1
    tasks := []
    task_task_dist_map := []
    last_action := none
    current_instance := none
    current_task_idx := -1
    overall_time_spent := 0
    random := ⟨0⟩ }

/-- `UserModelEnv.seed`: reinitialize the generator from the seed value. -/
def UserModelEnv.seed (e : UserModelEnv) (s : ℕ) : UserModelEnv :=
  { e with random := Rng.default_rng s }

/-- The outcome of a `step` call: a `(observation, reward, done, info)`
result together with the successor environment, an uncaught exception
(`IndexError`, `AssertionError`, `AttributeError`), or Python's implicit
`None` return when no branch of `step` applies. -/
inductive StepOutcome where
  | ok (observation : List ℚ) (reward : ℚ) (done : Bool) (info : Info) (env : UserModelEnv)
  | error
  | noneResult
  deriving DecidableEq

/-- `UserModelEnv.create_observation`: for each task append payout, the
rounds field gated by `is_active`, and the three property fields gated by
`instance_counter > 0`; then append the four global scalars. -/
def UserModelEnv.create_observation (e : UserModelEnv) : List ℚ :=
  let obs : List ℚ := []
  let obs := e.tasks.foldl (fun obs task =>
    let obs := obs ++ [task.properties.payout]
    let obs := if task.is_active e.user_reputation
      then obs ++ [(task.instance_counter : ℚ)]
      else obs ++ [(-1 : ℚ)]
    let obs := if 0 < task.instance_counter
      then obs ++ [task.properties.expertise, task.properties.effort,
                   task.properties.interestingness]
      else obs ++ [(-1 : ℚ), -1, -1]
    obs) obs
  obs ++ [(e.current_task_idx : ℚ), e.user_reputation,
          e.user_properties.time_budget, e.overall_time_spent]

/-- The tail of the answer branch of `step` (from `self.overall_time_spent
+= time_spent` on): charge the time, forward the answer to the selected
task, apply and clamp the reputation delta, then either deselect the task
if it became inactive or draw a new instance for it. -/
def UserModelEnv.stepAnswerFinish (e : UserModelEnv) (current_task : Task)
    (time_spent : ℚ) (answer_to_task : ℕ) (reward : ℚ) (r : Rng) : StepOutcome :=
  let e1 := { e with overall_time_spent := e.overall_time_spent + time_spent, random := r }
  match current_task.receive_answer answer_to_task with
  | none => .error
  | some rc =>
    let j := pyIdx e1.tasks e1.current_task_idx
    let rep1 := clamp01 (e1.user_reputation + rc.1)
    let e2 := { e1 with tasks := e1.tasks.set j rc.2, user_reputation := rep1 }
    if ¬ rc.2.is_active rep1 then
      let e3 := { e2 with current_task_idx := -1 }
      .ok e3.create_observation reward false {} e3
    else
      let q := rc.2.give_new_instance e2.random
      let e3 := { e2 with tasks := e2.tasks.set j q.1, random := q.2 }
      .ok e3.create_observation reward false {} e3

/-- The answer branch of `step` (actions 1 and 2). -/
def UserModelEnv.stepAnswer (e : UserModelEnv) (action : ℤ) (current_task : Task) :
    StepOutcome :=
  if e.current_task_idx = -1 ∨ ¬ current_task.is_active e.user_reputation then
    let e1 := { e with
      overall_time_spent := e.overall_time_spent + e.user_properties.random_answer_time }
    .ok e1.create_observation (-1) false {} e1
  else
    let reward_payout := e.user_properties.payout_sensitivity * current_task.properties.payout
    if action = UserModelEnv.ACTION_ANS_RND then
      let time_spent := e.user_properties.random_answer_time
      let a := e.random.integers 0 current_task.properties.num_classes
      e.stepAnswerFinish current_task time_spent a.1 reward_payout a.2
    else
      let time_spent := e.user_properties.intentional_answer_time * current_task.properties.effort
      let u := e.random.random
      let reward := reward_payout +
        e.user_properties.interestingness_sensitivity * current_task.properties.interestingness
      if u.1 < current_task.properties.expertise then
        match current_task.current_instance with
        | none => .error
        | some inst =>
          e.stepAnswerFinish current_task time_spent inst.true_label reward u.2
      else
        let a := u.2.integers 0 current_task.properties.num_classes
        e.stepAnswerFinish current_task time_spent a.1 reward a.2

/-- The switch branch of `step` (actions `≥ 3`). -/
def UserModelEnv.stepSwitch (e : UserModelEnv) (action : ℤ) : StepOutcome :=
  let previous_task_idx := e.current_task_idx
  let e1 := { e with
    current_task_idx := action - UserModelEnv.SWITCH_TASK0,
    overall_time_spent := e.overall_time_spent + e.user_properties.switch_task_time }
  match pyGet e1.tasks e1.current_task_idx with
  | none => .error
  | some target =>
    if ¬ target.is_active e1.user_reputation then
      let e2 := { e1 with current_task_idx := -1 }
      .ok e2.create_observation (-1) false {} e2
    else
      let reward : ℚ := if previous_task_idx = e1.current_task_idx then -1 else 0
      let q := target.give_new_instance e1.random
      let e2 := { e1 with
        tasks := e1.tasks.set (pyIdx e1.tasks e1.current_task_idx) q.1, random := q.2 }
      .ok e2.create_observation reward false {} e2

/-- `UserModelEnv.step`: record the action, handle quit and time-budget
termination, fetch `tasks[current_task_idx]` (Python indexing, so `-1`
addresses the last task), then dispatch to the answer or switch branch;
any remaining action falls through to Python's implicit `None` return. -/
def UserModelEnv.step (e : UserModelEnv) (action : ℤ) : StepOutcome :=
  let e1 := { e with last_action := some action }
  if action = UserModelEnv.ACTION_QUIT then
    let reward := (e1.user_properties.time_budget - e1.overall_time_spent) *
      e1.user_properties.time_sensitivity
    .ok e1.create_observation reward true { end_reason := some "user_quit" } e1
  else if e1.overall_time_spent > e1.user_properties.time_budget then
    .ok e1.create_observation 0 true { end_reason := some "end_of_user_time_budget" } e1
  else
    match pyGet e1.tasks e1.current_task_idx with
    | none => .error
    | some current_task =>
      if action = UserModelEnv.ACTION_ANS_RND ∨ action = UserModelEnv.ACTION_ANS_INTENT then
        e1.stepAnswer action current_task
      else if UserModelEnv.SWITCH_TASK0 ≤ action then
        e1.stepSwitch action
      else
        .noneResult

/-- Sample one fresh `Task` per task-giver, threading the generator through
`create_properties` in list order (the loop body of `reset`). -/
def sampleNewTasks (acs : AntiCheatSettings) :
    List TaskPropertiesDistribution → Rng → List Task × Rng
  | [], r => ([], r)
  | d :: ds, r =>
    let p := d.create_properties r
    let rest := sampleNewTasks acs ds p.2
    ({ properties := p.1, anti_cheat_settings := acs } :: rest.1, rest.2)

/-- `UserModelEnv.reset`: sample fresh tasks, shuffle the task-giver
indices, record the slot-to-distribution map, reset the per-episode worker
state, and return the initial observation with the new environment. -/
def UserModelEnv.reset (e : UserModelEnv) : List ℚ × UserModelEnv :=
  let nt := sampleNewTasks e.anti_cheat_settings e.tasks_properties_distributions e.random
  let sh := nt.2.shuffle (List.range e.tasks_properties_distributions.length)
  let tasks := sh.1.filterMap (nt.1.get? ·)
  let e1 := { e with
    tasks := tasks
    task_task_dist_map := sh.1
    current_task_idx := -1
    last_action := none
    current_instance := none
    overall_time_spent := 0
    user_reputation := e.user_properties.start_reputation
    random := sh.2 }
  (e1.create_observation, e1)

/-- Run a list of actions from an environment, collecting the
`(observation, reward, done, info)` outputs; stop if `step` does not
return a result. -/
def UserModelEnv.run (e : UserModelEnv) : List ℤ → List (List ℚ × ℚ × Bool × Info)
  | [] => []
  | a :: rest =>
    match e.step a with
    | .ok obs r d info e' => (obs, r, d, info) :: e'.run rest
    | _ => []

/-- The full scripted experiment `seed(s); reset(); step(a1); step(a2); ...`:
the initial observation and the per-step outputs. -/
def runFromSeed (up : UserProperties) (ds : List TaskPropertiesDistribution)
    (acs : AntiCheatSettings) (s : ℕ) (actions : List ℤ) :
    List ℚ × List (List ℚ × ℚ × Bool × Info) :=
  let e0 := (UserModelEnv.init up ds acs).seed s
  let p := e0.reset
  (p.1, p.2.run actions)

/-- Environments reachable from a configuration: after `seed(s); reset()`,
after a further `reset`, or after any `step` call that returns a result. -/
inductive Reachable (up : UserProperties) (ds : List TaskPropertiesDistribution)
    (acs : AntiCheatSettings) : UserModelEnv → Prop where
  | seed_reset (s : ℕ) :
      Reachable up ds acs (((UserModelEnv.init up ds acs).seed s).reset).2
  | reset_again (e : UserModelEnv) :
      Reachable up ds acs e → Reachable up ds acs e.reset.2
  | step_tr (e : UserModelEnv) (a : ℤ) (obs : List ℚ) (r : ℚ) (d : Bool)
      (info : Info) (e' : UserModelEnv) :
      Reachable up ds acs e → e.step a = .ok obs r d info e' → Reachable up ds acs e'

/-- Environments reachable from one another by `step` calls alone (within
one episode, with no intervening `reset`). -/
inductive StepReachable : UserModelEnv → UserModelEnv → Prop where
  | refl (e : UserModelEnv) : StepReachable e e
  | tail (e e' e'' : UserModelEnv) (a : ℤ) (obs : List ℚ) (r : ℚ) (d : Bool) (info : Info) :
      StepReachable e e' → e'.step a = .ok obs r d info e'' → StepReachable e e''

/-- How a task evolves across one episode: properties and settings are
fixed, and the progress counters never decrease. -/
def TaskEvolves (t t' : Task) : Prop :=
  t'.properties = t.properties ∧
  t'.anti_cheat_settings = t.anti_cheat_settings ∧
  t.real_instance_counter ≤ t'.real_instance_counter ∧
  t.qa_false_counter ≤ t'.qa_false_counter ∧
  t.instance_counter ≤ t'.instance_counter

/-- The five observation entries contributed by one task slot. -/
def taskObsBlock (rep : ℚ) (task : Task) : List ℚ :=
  [task.properties.payout,
   if task.is_active rep then (task.instance_counter : ℚ) else -1] ++
  (if 0 < task.instance_counter
    then [task.properties.expertise, task.properties.effort,
          task.properties.interestingness]
    else [-1, -1, -1])

/-- Whether a `step` outcome is a proper `(observation, reward, done, info)`
result. -/
def StepOutcome.isOkB : StepOutcome → Bool
  | .ok _ _ _ _ _ => true
  | _ => false

/-- The environment produced by a failed switch (target task inactive):
time charged, selection cleared. -/
def switchFailEnv (e : UserModelEnv) (a : ℤ) : UserModelEnv :=
  { e with
    last_action := some a,
    current_task_idx := -1,
    overall_time_spent := e.overall_time_spent + e.user_properties.switch_task_time }

/-- The environment produced by a successful switch to task `a - 3`: time
charged, task selected, a new instance drawn for it. -/
def switchResultEnv (e : UserModelEnv) (a : ℤ) (target : Task) : UserModelEnv :=
  { e with
    last_action := some a,
    current_task_idx := a - UserModelEnv.SWITCH_TASK0,
    overall_time_spent := e.overall_time_spent + e.user_properties.switch_task_time,
    tasks := e.tasks.set (a - UserModelEnv.SWITCH_TASK0).toNat
      (target.give_new_instance e.random).1,
    random := (target.give_new_instance e.random).2 }

/-! Concrete configurations used as witness and counterexample inputs. -/

/-- A worker profile with `time_budget = 10`, `time_sensitivity = 2` and an
in-range `start_reputation = 1/2`. -/
def upEx : UserProperties :=
  { interestingness_sensitivity := 1, payout_sensitivity := 1, time_sensitivity := 2,
    time_budget := 10, start_reputation := 1/2 }

/-- A worker profile whose configured `start_reputation = 2` lies outside
`[0, 1]`. -/
def upBad : UserProperties :=
  { interestingness_sensitivity := 1, payout_sensitivity := 1, time_sensitivity := 2,
    time_budget := 10, start_reputation := 2 }

/-- Anti-cheat settings allowing at most one failed gold question
(`qa_false_max = 2` is a strict bound). -/
def acsEx : AntiCheatSettings :=
  { qa_false_max := 2, qa_mode_prob := 1/2, reputation_punishment := -1/20,
    reputation_bonus := 1/20, min_reputation := 0 }

/-- Anti-cheat settings where a single failed gold question deactivates the
task (`qa_false_max = 1`). -/
def acsC8 : AntiCheatSettings :=
  { qa_false_max := 1, qa_mode_prob := 1/2, reputation_punishment := -1,
    reputation_bonus := 1, min_reputation := 0 }

/-- Fixed task properties with five target instances. -/
def propsEx : TaskProperties :=
  { payout := 1/2, expertise := 4/5, effort := 1/2, interestingness := 1/2,
    target_num_instances := 5 }

/-- A one-task-giver configuration with fixed properties. -/
def dsEx : List TaskPropertiesDistribution :=
  [.customFixed (1/2) (4/5) (1/2) (1/2) 5]

/-- A freshly constructed task (mode not yet set). -/
def taskFresh : Task := { properties := propsEx, anti_cheat_settings := acsEx }

/-- A task in quality-control mode holding a gold question with true label 3. -/
def taskQC : Task :=
  { properties := propsEx, anti_cheat_settings := acsEx,
    mode := some .quality_control, current_instance := some { true_label := 3 } }

/-- A task in label mode holding a question with true label 3. -/
def taskLB : Task :=
  { properties := propsEx, anti_cheat_settings := acsEx,
    mode := some .label, current_instance := some { true_label := 3 } }

/-- A task that is already inactive: its `qa_false_counter` reached the
strict bound `qa_false_max = 2` of `acsEx`. -/
def taskDead : Task :=
  { properties := propsEx, anti_cheat_settings := acsEx,
    mode := some .quality_control, current_instance := some { true_label := 3 },
    qa_false_counter := 2 }

/-- A task under `acsC8` (gold-question budget 1), one wrong answer away
from deactivation. -/
def taskC8 : Task :=
  { properties := propsEx, anti_cheat_settings := acsC8,
    mode := some .quality_control, current_instance := some { true_label := 3 } }

/-- An environment with the quality-control task selected and 3 time units
already spent (the quit scenario of the spec). -/
def envC5 : UserModelEnv :=
  { user_properties := upEx, tasks_properties_distributions := dsEx,
    anti_cheat_settings := acsEx, user_reputation := 1, tasks := [taskQC],
    task_task_dist_map := [0], last_action := none, current_instance := none,
    current_task_idx := 0, overall_time_spent := 3, random := ⟨0⟩ }

/-- The same environment with the time budget already exceeded. -/
def envC5b : UserModelEnv := { envC5 with overall_time_spent := 11 }

/-- An environment with no task selected (`current_task_idx = -1`). -/
def envC9 : UserModelEnv :=
  { envC5 with current_task_idx := -1, overall_time_spent := 0 }

/-- A two-task environment with task 0 selected, used for the switch
scenarios. -/
def envC6 : UserModelEnv :=
  { envC5 with
    tasks := [taskQC, taskQC],
    task_task_dist_map := [0, 1],
    overall_time_spent := 0 }

/-- A one-task environment with the (active) task selected. -/
def envC10 : UserModelEnv := { envC5 with overall_time_spent := 0 }

/-- An environment holding only an already-inactive task. -/
def envC3 : UserModelEnv :=
  { envC5 with tasks := [taskDead], current_task_idx := -1, overall_time_spent := 0 }

/-- An environment one wrong gold answer away from deactivating its selected
task (`acsC8` tolerates no failed gold question). -/
def envC8 : UserModelEnv :=
  { user_properties := upEx, tasks_properties_distributions := dsEx,
    anti_cheat_settings := acsC8, user_reputation := 1, tasks := [taskC8],
    task_task_dist_map := [0], last_action := none, current_instance := none,
    current_task_idx := 0, overall_time_spent := 0, random := ⟨0⟩ }

/-- The task of `envC8` after the wrong gold answer of the `step` call:
one labelling round done and the gold-question budget exhausted. -/
def taskC8After : Task :=
  { taskC8 with instance_counter := 1, qa_false_counter := 1,
                last_response_type := "qa_incorrect" }

/-- The environment produced by `envC8.step 1`: the negligent answer missed
the gold question, the task is deactivated and deselected. -/
def envC8After : UserModelEnv :=
  { envC8 with
    last_action := some 1,
    overall_time_spent := envC8.overall_time_spent + envC8.user_properties.random_answer_time,
    random := (envC8.random.integers 0 10).2,
    tasks := [taskC8After],
    user_reputation := clamp01 (envC8.user_reputation + acsC8.reputation_punishment),
    current_task_idx := -1 }

/-- The environment obtained right after `seed(0); reset()` under the
out-of-range `start_reputation = 2` profile. -/
def envC1cex : UserModelEnv := (((UserModelEnv.init upBad [] acsEx).seed 0).reset).2

/-! Basic lemmas about the helper operations. -/

theorem clamp01_nonneg (x : ℚ) : 0 ≤ clamp01 x := le_max_left 0 _

theorem clamp01_le_one (x : ℚ) : clamp01 x ≤ 1 :=
  max_le (by norm_num) (min_le_left 1 x)

theorem taskEvolves_refl (t : Task) : TaskEvolves t t :=
  ⟨rfl, rfl, le_refl _, le_refl _, le_refl _⟩

theorem taskEvolves_trans {t t' t'' : Task} (h : TaskEvolves t t') (h' : TaskEvolves t' t'') :
    TaskEvolves t t'' :=
  ⟨h'.1.trans h.1, h'.2.1.trans h.2.1, h.2.2.1.trans h'.2.2.1,
   h.2.2.2.1.trans h'.2.2.2.1, h.2.2.2.2.trans h'.2.2.2.2⟩

theorem lget_some_lt {l : List α} {n : ℕ} {a : α} (h : l.get? n = some a) : n < l.length := by
  induction l generalizing n with
  | nil => simp [List.get?] at h
  | cons x xs ih =>
    cases n with
    | zero => simp
    | succ m => simpa using Nat.succ_lt_succ (ih (by simpa using h))

theorem lget_some_mem {l : List α} {n : ℕ} {a : α} (h : l.get? n = some a) : a ∈ l := by
  induction l generalizing n with
  | nil => simp [List.get?] at h
  | cons x xs ih =>
    cases n with
    | zero => simp at h; simp [h]
    | succ m => exact List.mem_cons_of_mem _ (ih (by simpa using h))

theorem lmem_some_get {l : List α} {a : α} (h : a ∈ l) : ∃ n, l.get? n = some a := by
  induction l with
  | nil => simp at h
  | cons x xs ih =>
    rcases List.mem_cons.mp h with h | h
    · exact ⟨0, by simp [h]⟩
    · obtain ⟨n, hn⟩ := ih h
      exact ⟨n + 1, by simpa using hn⟩

theorem lget_lt_some {l : List α} {n : ℕ} (h : n < l.length) : ∃ a, l.get? n = some a := by
  induction l generalizing n with
  | nil => simp at h
  | cons x xs ih =>
    cases n with
    | zero => exact ⟨x, rfl⟩
    | succ m => simpa using ih (by simpa using Nat.lt_of_succ_lt_succ h)

theorem lget_ge_none {l : List α} {n : ℕ} (h : l.length ≤ n) : l.get? n = none := by
  induction l generalizing n with
  | nil => rfl
  | cons x xs ih =>
    cases n with
    | zero => simp at h
    | succ m => simpa using ih (by simpa using Nat.le_of_succ_le_succ h)

theorem pyGet_eq_get (l : List α) {i : ℤ} (h : 0 ≤ i) : pyGet l i = l.get? i.toNat := by
  simp [pyGet, h]

theorem pyGet_mem {l : List α} {i : ℤ} {x : α} (h : pyGet l i = some x) : x ∈ l := by
  unfold pyGet at h
  split at h
  · exact lget_some_mem h
  · split at h
    · exact lget_some_mem h
    · simp at h

theorem pyGet_pyIdx {l : List α} {i : ℤ} {x : α} (h : pyGet l i = some x) :
    l.get? (pyIdx l i) = some x := by
  unfold pyGet at h
  unfold pyIdx
  split at h
  · rwa [if_pos (by assumption)]
  · split at h
    · rwa [if_neg (by assumption)]
    · simp at h

theorem pairing_set {l : List Task} {j : ℕ} {c c' : Task}
    (hget : l.get? j = some c) (hev : TaskEvolves c c') :
    ∀ i t t', l.get? i = some t → (l.set j c').get? i = some t' → TaskEvolves t t' := by
  intro i t t' h1 h2
  by_cases hij : i = j
  · subst hij
    rw [List.get?_set_eq_of_lt _ (lget_some_lt hget)] at h2
    rw [h1] at hget
    cases hget
    cases h2
    exact hev
  · rw [List.get?_set_ne _ _ (fun hji => hij hji.symm)] at h2
    rw [h1] at h2
    cases h2
    exact taskEvolves_refl t

theorem receive_answer_evolves {t : Task} {answer : ℕ} {p : ℚ × Task}
    (h : t.receive_answer answer = some p) : TaskEvolves t p.2 := by
  unfold Task.receive_answer at h
  split at h
  · exact absurd h (by simp)
  · exact absurd h (by simp)
  · split at h
    · split at h <;>
        (cases h; exact ⟨rfl, rfl, le_refl _, by simp [Nat.le_succ], by simp [Nat.le_succ]⟩)
    · split at h <;>
        (cases h; exact ⟨rfl, rfl, by simp [Nat.le_succ], le_refl _, by simp [Nat.le_succ]⟩)

theorem receive_answer_isSome (t : Task) (answer : ℕ)
    (hm : t.mode.isSome) (hi : t.current_instance.isSome) :
    ∃ q t', t.receive_answer answer = some (q, t') := by
  obtain ⟨m, hm'⟩ := Option.isSome_iff_exists.mp hm
  obtain ⟨inst, hi'⟩ := Option.isSome_iff_exists.mp hi
  unfold Task.receive_answer
  rw [hm', hi']
  cases m <;> by_cases h : answer ≠ inst.true_label <;> simp [h]

theorem give_new_instance_fields (t : Task) (r : Rng) :
    (t.give_new_instance r).1.properties = t.properties ∧
    (t.give_new_instance r).1.anti_cheat_settings = t.anti_cheat_settings ∧
    (t.give_new_instance r).1.real_instance_counter = t.real_instance_counter ∧
    (t.give_new_instance r).1.qa_false_counter = t.qa_false_counter ∧
    (t.give_new_instance r).1.instance_counter = t.instance_counter ∧
    (t.give_new_instance r).1.mode.isSome ∧
    (t.give_new_instance r).1.current_instance.isSome := by
  by_cases h : (r.random).1 < t.anti_cheat_settings.qa_mode_prob <;>
    simp [Task.give_new_instance, Task.get_next_unlabeled_instance,
          Task.get_next_known_answer_instance, h]

theorem give_new_instance_evolves (t : Task) (r : Rng) :
    TaskEvolves t (t.give_new_instance r).1 := by
  obtain ⟨h1, h2, h3, h4, h5, _⟩ := give_new_instance_fields t r
  exact ⟨h1, h2, le_of_eq h3.symm, le_of_eq h4.symm, le_of_eq h5.symm⟩

/-! Lemmas about the observation encoding. -/

theorem taskObsBlock_length (rep : ℚ) (t : Task) : (taskObsBlock rep t).length = 5 := by
  by_cases h : 0 < t.instance_counter <;> simp [taskObsBlock, h]

theorem obs_foldl_eq (rep : ℚ) :
    ∀ (l : List Task) (acc : List ℚ),
      l.foldl (fun obs task =>
        let obs := obs ++ [task.properties.payout]
        let obs := if task.is_active rep
          then obs ++ [(task.instance_counter : ℚ)]
          else obs ++ [(-1 : ℚ)]
        let obs := if 0 < task.instance_counter
          then obs ++ [task.properties.expertise, task.properties.effort,
                       task.properties.interestingness]
          else obs ++ [(-1 : ℚ), -1, -1]
        obs) acc = acc ++ l.flatMap (taskObsBlock rep)
  | [], acc => by simp
  | t :: ts, acc => by
    rw [List.foldl_cons, obs_foldl_eq rep ts]
    by_cases h1 : t.is_active rep <;> by_cases h2 : 0 < t.instance_counter <;>
      simp [taskObsBlock, h1, h2]

theorem create_observation_eq (e : UserModelEnv) :
    e.create_observation = e.tasks.flatMap (taskObsBlock e.user_reputation) ++
      [(e.current_task_idx : ℚ), e.user_reputation, e.user_properties.time_budget,
       e.overall_time_spent] := by
  show (e.tasks.foldl _ []) ++ _ = _
  rw [obs_foldl_eq e.user_reputation e.tasks []]
  simp

theorem flatMap_block_length (rep : ℚ) :
    ∀ l : List Task, (l.flatMap (taskObsBlock rep)).length = 5 * l.length
  | [] => by simp
  | t :: ts => by
    have : (t :: ts).flatMap (taskObsBlock rep) =
        taskObsBlock rep t ++ ts.flatMap (taskObsBlock rep) := rfl
    rw [this, List.length_append, taskObsBlock_length, flatMap_block_length rep ts,
        List.length_cons]
    ring

theorem flatMap_block_get (rep : ℚ) :
    ∀ (l : List Task) (i j : ℕ), j < 5 →
      (l.flatMap (taskObsBlock rep)).get? (5 * i + j) =
        (l.get? i).bind (fun t => (taskObsBlock rep t).get? j)
  | [], i, j, _ => by simp
  | t :: ts, 0, j, hj => by
    have he : (t :: ts).flatMap (taskObsBlock rep) =
        taskObsBlock rep t ++ ts.flatMap (taskObsBlock rep) := rfl
    rw [he, Nat.mul_zero, Nat.zero_add,
        List.get?_append (by rw [taskObsBlock_length]; exact hj)]
    rfl
  | t :: ts, i + 1, j, hj => by
    have he : (t :: ts).flatMap (taskObsBlock rep) =
        taskObsBlock rep t ++ ts.flatMap (taskObsBlock rep) := rfl
    rw [he, List.get?_append_right (by rw [taskObsBlock_length]; omega)]
    rw [taskObsBlock_length]
    have harith : 5 * (i + 1) + j - 5 = 5 * i + j := by omega
    rw [harith, flatMap_block_get rep ts i j hj]
    rfl

theorem taskObsBlock_get_one {rep : ℚ} {t : Task} (h : ¬ t.is_active rep) :
    (taskObsBlock rep t).get? 1 = some (-1) := by
  by_cases h2 : 0 < t.instance_counter <;> simp [taskObsBlock, h, h2]

/-! Field-tracking lemmas for each branch of `step`. -/

theorem pairing_same {l : List Task} :
    ∀ (i : ℕ) (t t' : Task), l.get? i = some t → l.get? i = some t' → TaskEvolves t t' := by
  intro i t t' h1 h2
  rw [h1] at h2
  cases h2
  exact taskEvolves_refl t

theorem stepAnswerFinish_ok_fields {e : UserModelEnv} {ct : Task} {ts rwd : ℚ} {ans : ℕ}
    {r : Rng} {obs : List ℚ} {rr : ℚ} {d : Bool} {info : Info} {e' : UserModelEnv}
    (hget : e.tasks.get? (pyIdx e.tasks e.current_task_idx) = some ct)
    (h : e.stepAnswerFinish ct ts ans rwd r = .ok obs rr d info e') :
    e'.user_properties = e.user_properties ∧
    e'.anti_cheat_settings = e.anti_cheat_settings ∧
    e'.tasks_properties_distributions = e.tasks_properties_distributions ∧
    e'.tasks.length = e.tasks.length ∧
    (∀ i t t', e.tasks.get? i = some t → e'.tasks.get? i = some t' → TaskEvolves t t') ∧
    (0 ≤ e'.user_reputation ∧ e'.user_reputation ≤ 1) ∧
    obs = e'.create_observation ∧ d = false := by
  simp only [UserModelEnv.stepAnswerFinish] at h
  split at h
  next heq => exact absurd h (by simp)
  next rc heq =>
    have hev1 : TaskEvolves ct rc.2 := receive_answer_evolves heq
    have hj : pyIdx e.tasks e.current_task_idx < e.tasks.length := lget_some_lt hget
    split at h
    next hact =>
      simp only [StepOutcome.ok.injEq] at h
      obtain ⟨rfl, rfl, rfl, rfl, rfl⟩ := h
      exact ⟨rfl, rfl, rfl, by simp, pairing_set hget hev1,
        ⟨clamp01_nonneg _, clamp01_le_one _⟩, rfl, rfl⟩
    next hact =>
      simp only [StepOutcome.ok.injEq] at h
      obtain ⟨rfl, rfl, rfl, rfl, rfl⟩ := h
      have hget2 : (e.tasks.set (pyIdx e.tasks e.current_task_idx) rc.2).get?
          (pyIdx e.tasks e.current_task_idx) = some rc.2 := List.get?_set_eq_of_lt _ hj
      refine ⟨rfl, rfl, rfl, by simp, ?_, ⟨clamp01_nonneg _, clamp01_le_one _⟩, rfl, rfl⟩
      intro i t t'' h1 h2
      have hlen : i < (e.tasks.set (pyIdx e.tasks e.current_task_idx) rc.2).length := by
        have := lget_some_lt h2
        simpa using this
      obtain ⟨t', ht'⟩ := lget_lt_some hlen
      exact taskEvolves_trans (pairing_set hget hev1 i t t' h1 ht')
        (pairing_set hget2 (give_new_instance_evolves rc.2 _) i t' t'' ht' h2)

theorem stepAnswer_ok_fields (e : UserModelEnv) {a : ℤ} {ct : Task}
    {obs : List ℚ} {rr : ℚ} {d : Bool} {info : Info} {e' : UserModelEnv}
    (hget : pyGet e.tasks e.current_task_idx = some ct)
    (h : e.stepAnswer a ct = .ok obs rr d info e') :
    e'.user_properties = e.user_properties ∧
    e'.anti_cheat_settings = e.anti_cheat_settings ∧
    e'.tasks_properties_distributions = e.tasks_properties_distributions ∧
    e'.tasks.length = e.tasks.length ∧
    (∀ i t t', e.tasks.get? i = some t → e'.tasks.get? i = some t' → TaskEvolves t t') ∧
    (e'.user_reputation = e.user_reputation ∨
      (ct.is_active e.user_reputation ∧ 0 ≤ e'.user_reputation ∧ e'.user_reputation ≤ 1)) ∧
    obs = e'.create_observation ∧ d = false := by
  have hget' := pyGet_pyIdx hget
  simp only [UserModelEnv.stepAnswer] at h
  split at h
  · simp only [StepOutcome.ok.injEq] at h
    obtain ⟨rfl, rfl, rfl, rfl, rfl⟩ := h
    exact ⟨rfl, rfl, rfl, rfl, pairing_same, Or.inl rfl, rfl, rfl⟩
  next hcond =>
    push_neg at hcond
    have hact : ct.is_active e.user_reputation := hcond.2
    split at h
    · obtain ⟨f1, f2, f3, f4, f5, f6, f7, f8⟩ := stepAnswerFinish_ok_fields hget' h
      exact ⟨f1, f2, f3, f4, f5, Or.inr ⟨hact, f6⟩, f7, f8⟩
    · split at h
      · split at h
        next heq2 => exact absurd h (by simp)
        next inst heq2 =>
          obtain ⟨f1, f2, f3, f4, f5, f6, f7, f8⟩ := stepAnswerFinish_ok_fields hget' h
          exact ⟨f1, f2, f3, f4, f5, Or.inr ⟨hact, f6⟩, f7, f8⟩
      · obtain ⟨f1, f2, f3, f4, f5, f6, f7, f8⟩ := stepAnswerFinish_ok_fields hget' h
        exact ⟨f1, f2, f3, f4, f5, Or.inr ⟨hact, f6⟩, f7, f8⟩

theorem stepSwitch_ok_fields {e : UserModelEnv} {a : ℤ}
    {obs : List ℚ} {rr : ℚ} {d : Bool} {info : Info} {e' : UserModelEnv}
    (h : e.stepSwitch a = .ok obs rr d info e') :
    e'.user_properties = e.user_properties ∧
    e'.anti_cheat_settings = e.anti_cheat_settings ∧
    e'.tasks_properties_distributions = e.tasks_properties_distributions ∧
    e'.tasks.length = e.tasks.length ∧
    (∀ i t t', e.tasks.get? i = some t → e'.tasks.get? i = some t' → TaskEvolves t t') ∧
    e'.user_reputation = e.user_reputation ∧
    obs = e'.create_observation ∧ d = false := by
  simp only [UserModelEnv.stepSwitch] at h
  split at h
  next heq => exact absurd h (by simp)
  next target heq =>
    split at h
    next hin =>
      simp only [StepOutcome.ok.injEq] at h
      obtain ⟨rfl, rfl, rfl, rfl, rfl⟩ := h
      exact ⟨rfl, rfl, rfl, rfl, pairing_same, rfl, rfl, rfl⟩
    next hin =>
      simp only [StepOutcome.ok.injEq] at h
      obtain ⟨rfl, rfl, rfl, rfl, rfl⟩ := h
      exact ⟨rfl, rfl, rfl, by simp, pairing_set (pyGet_pyIdx heq)
        (give_new_instance_evolves target _), rfl, rfl, rfl⟩

theorem step_ok_fields {e : UserModelEnv} {a : ℤ}
    {obs : List ℚ} {r : ℚ} {d : Bool} {info : Info} {e' : UserModelEnv}
    (h : e.step a = .ok obs r d info e') :
    e'.user_properties = e.user_properties ∧
    e'.anti_cheat_settings = e.anti_cheat_settings ∧
    e'.tasks_properties_distributions = e.tasks_properties_distributions ∧
    e'.tasks.length = e.tasks.length ∧
    (∀ i t t', e.tasks.get? i = some t → e'.tasks.get? i = some t' → TaskEvolves t t') ∧
    (e'.user_reputation = e.user_reputation ∨
      ((∃ c, c ∈ e.tasks ∧ c.is_active e.user_reputation) ∧
        0 ≤ e'.user_reputation ∧ e'.user_reputation ≤ 1)) ∧
    obs = e'.create_observation := by
  simp only [UserModelEnv.step] at h
  split at h
  · simp only [StepOutcome.ok.injEq] at h
    obtain ⟨rfl, rfl, rfl, rfl, rfl⟩ := h
    exact ⟨rfl, rfl, rfl, rfl, pairing_same, Or.inl rfl, rfl⟩
  · split at h
    · simp only [StepOutcome.ok.injEq] at h
      obtain ⟨rfl, rfl, rfl, rfl, rfl⟩ := h
      exact ⟨rfl, rfl, rfl, rfl, pairing_same, Or.inl rfl, rfl⟩
    · split at h
      next heq => exact absurd h (by simp)
      next ct heq =>
        split at h
        next ha =>
          obtain ⟨f1, f2, f3, f4, f5, f6, f7, _⟩ :=
            stepAnswer_ok_fields { e with last_action := some a } heq h
          refine ⟨f1, f2, f3, f4, f5, ?_, f7⟩
          rcases f6 with f6 | ⟨hact, hb⟩
          · exact Or.inl f6
          · exact Or.inr ⟨⟨ct, pyGet_mem heq, hact⟩, hb⟩
        next ha =>
          split at h
          next hsw =>
            obtain ⟨f1, f2, f3, f4, f5, f6, f7, _⟩ := stepSwitch_ok_fields h
            exact ⟨f1, f2, f3, f4, f5, Or.inl f6, f7⟩
          next hsw => exact absurd h (by simp)

/-! Reset and reachability lemmas. -/

theorem reset_snd_user_properties (e : UserModelEnv) :
    (e.reset).2.user_properties = e.user_properties := rfl

theorem reset_snd_user_reputation (e : UserModelEnv) :
    (e.reset).2.user_reputation = e.user_properties.start_reputation := rfl

theorem reachable_props_bounds {up : UserProperties} {ds : List TaskPropertiesDistribution}
    {acs : AntiCheatSettings} {e : UserModelEnv}
    (h0 : 0 ≤ up.start_reputation) (h1 : up.start_reputation ≤ 1)
    (hr : Reachable up ds acs e) :
    e.user_properties = up ∧ 0 ≤ e.user_reputation ∧ e.user_reputation ≤ 1 := by
  induction hr with
  | seed_reset s => exact ⟨rfl, h0, h1⟩
  | reset_again e hre ih =>
    refine ⟨?_, ?_, ?_⟩
    · rw [reset_snd_user_properties]
      exact ih.1
    · rw [reset_snd_user_reputation, ih.1]
      exact h0
    · rw [reset_snd_user_reputation, ih.1]
      exact h1
  | step_tr e a obs r d info e' hre hstep ih =>
    obtain ⟨f1, _, _, _, _, f6, _⟩ := step_ok_fields hstep
    rcases f6 with f6 | ⟨_, hb0, hb1⟩
    · exact ⟨f1.trans ih.1, by rw [f6]; exact ih.2.1, by rw [f6]; exact ih.2.2⟩
    · exact ⟨f1.trans ih.1, hb0, hb1⟩

theorem step_inactive_persists {e : UserModelEnv} {a : ℤ} {obs : List ℚ} {r : ℚ} {d : Bool}
    {info : Info} {e' : UserModelEnv}
    (h : e.step a = .ok obs r d info e')
    (hsh : ∀ t ∈ e.tasks, t.anti_cheat_settings = e.anti_cheat_settings)
    {i : ℕ} {t t' : Task} (ht : e.tasks.get? i = some t) (ht' : e'.tasks.get? i = some t')
    (hin : ¬ t.is_active e.user_reputation) : ¬ t'.is_active e'.user_reputation := by
  obtain ⟨_, _, _, _, hpair, hrep, _⟩ := step_ok_fields h
  obtain ⟨hprops, hacs, hreal, hqa, _⟩ := hpair i t t' ht ht'
  intro hact'
  obtain ⟨c1', c2', c3'⟩ := hact'
  refine hin ⟨?_, ?_, ?_⟩
  · calc (t.real_instance_counter : ℚ) ≤ (t'.real_instance_counter : ℚ) := by
          exact_mod_cast hreal
      _ < t'.properties.target_num_instances := c1'
      _ = t.properties.target_num_instances := by rw [hprops]
  · calc (t.qa_false_counter : ℤ) ≤ (t'.qa_false_counter : ℤ) := by exact_mod_cast hqa
      _ < t'.anti_cheat_settings.qa_false_max := c2'
      _ = t.anti_cheat_settings.qa_false_max := by rw [hacs]
  · rcases hrep with hrep | ⟨⟨c, hcmem, hcact⟩, _⟩
    · have hmin : t.anti_cheat_settings.min_reputation =
          t'.anti_cheat_settings.min_reputation := by rw [hacs]
      rw [hmin, ← hrep]
      exact c3'
    · have h1 : t.anti_cheat_settings = e.anti_cheat_settings := hsh t (lget_some_mem ht)
      have h2 : c.anti_cheat_settings = e.anti_cheat_settings := hsh c hcmem
      rw [h1, ← h2]
      exact hcact.2.2

theorem stepReachable_inactive_aux {e e' : UserModelEnv} (h : StepReachable e e')
    (hsh : ∀ t ∈ e.tasks, t.anti_cheat_settings = e.anti_cheat_settings) :
    (∀ t ∈ e'.tasks, t.anti_cheat_settings = e'.anti_cheat_settings) ∧
    e'.anti_cheat_settings = e.anti_cheat_settings ∧
    e'.tasks.length = e.tasks.length ∧
    (∀ i t t', e.tasks.get? i = some t → e'.tasks.get? i = some t' →
      ¬ t.is_active e.user_reputation → ¬ t'.is_active e'.user_reputation) := by
  induction h with
  | refl =>
    refine ⟨hsh, rfl, rfl, fun i t t' h1 h2 hin => ?_⟩
    rw [h1] at h2
    cases h2
    exact hin
  | tail e1 e2 a obs r d info hsr hstep ih =>
    obtain ⟨ihsh, ihacs, ihlen, ihin⟩ := ih
    obtain ⟨_, facs, _, flen, fpair, _, _⟩ := step_ok_fields hstep
    refine ⟨?_, facs.trans ihacs, flen.trans ihlen, ?_⟩
    · intro t2 ht2
      obtain ⟨n, hn⟩ := lmem_some_get ht2
      have hlt : n < e1.tasks.length := by
        rw [← flen]
        exact lget_some_lt hn
      obtain ⟨t1, ht1⟩ := lget_lt_some hlt
      have hev := fpair n t1 t2 ht1 hn
      rw [facs, hev.2.1]
      exact ihsh t1 (lget_some_mem ht1)
    · intro i t t2 h1 h2 hin
      have hlt : i < e1.tasks.length := by
        rw [← flen]
        exact lget_some_lt h2
      obtain ⟨t1, ht1⟩ := lget_lt_some hlt
      exact step_inactive_persists hstep ihsh ht1 h2 (ihin i t t1 h1 ht1 hin)

/-! Claim theorems. -/

/-- C1 (amended): for every reachable state of the environment -- after
`seed`/`reset` and any sequence of `step` calls -- `0 ≤ user_reputation ≤ 1`
holds provided the configured `start_reputation` lies in `[0, 1]`: every
reputation update inside `step` is clamped to `[0, 1]`, but `reset` assigns
`start_reputation` without clamping, so the invariant needs that premise. -/
theorem c1_reputation_invariant (up : UserProperties) (ds : List TaskPropertiesDistribution)
    (acs : AntiCheatSettings) (e : UserModelEnv)
    (h0 : 0 ≤ up.start_reputation) (h1 : up.start_reputation ≤ 1)
    (hr : Reachable up ds acs e) :
    0 ≤ e.user_reputation ∧ e.user_reputation ≤ 1 :=
  (reachable_props_bounds h0 h1 hr).2

theorem c1_reputation_invariant_witness :
    (0 ≤ upEx.start_reputation ∧ upEx.start_reputation ≤ 1) ∧
    (0 ≤ (((UserModelEnv.init upEx dsEx acsEx).seed 5).reset).2.user_reputation ∧
      (((UserModelEnv.init upEx dsEx acsEx).seed 5).reset).2.user_reputation ≤ 1) :=
  ⟨⟨by norm_num [upEx], by norm_num [upEx]⟩,
   c1_reputation_invariant upEx dsEx acsEx _ (by norm_num [upEx]) (by norm_num [upEx])
     (Reachable.seed_reset 5)⟩

/-- C1 counterexample: the claim as stated (the invariant for every
reachable state, with `start_reputation` clamped at `reset`) is false:
with `start_reputation = 2` the state reached by `seed(0); reset()` has
`user_reputation = 2 > 1`, because `reset` assigns `start_reputation`
without clamping. -/
theorem c1_counterexample :
    Reachable upBad [] acsEx envC1cex ∧
    ¬ (0 ≤ envC1cex.user_reputation ∧ envC1cex.user_reputation ≤ 1) := by
  constructor
  · exact Reachable.seed_reset 0
  · intro hcon
    have h2 : envC1cex.user_reputation = 2 := rfl
    rw [h2] at hcon
    norm_num at hcon

/-- C2: for every seed value and every fixed action sequence, two runs of
`seed(s); reset(); step(a1); step(a2); ...` produce identical sequences of
observations, rewards and done flags: the whole trace is a pure function of
the seed and the actions, since all environment randomness flows through
the one generator initialized by `seed`. -/
theorem c2_determinism (up : UserProperties) (ds : List TaskPropertiesDistribution)
    (acs : AntiCheatSettings) (s1 s2 : ℕ) (acts1 acts2 : List ℤ)
    (hs : s1 = s2) (ha : acts1 = acts2) :
    runFromSeed up ds acs s1 acts1 = runFromSeed up ds acs s2 acts2 := by
  rw [hs, ha]

theorem c2_determinism_witness :
    (42 : ℕ) = 42 ∧
    runFromSeed upEx dsEx acsEx 42 [3, 1, 2, 0] = runFromSeed upEx dsEx acsEx 42 [3, 1, 2, 0] :=
  ⟨rfl, c2_determinism upEx dsEx acsEx 42 42 [3, 1, 2, 0] [3, 1, 2, 0] rfl rfl⟩

/-- C3: within one episode, once a task's `is_active` has become false it
stays false at every later step: the progress counters never decrease, and
a reputation below the (shared) `min_reputation` freezes, because with it
every task is inactive and no branch of `step` then changes reputation. -/
theorem c3_inactive_never_reactivates (e e' : UserModelEnv)
    (hsh : ∀ t ∈ e.tasks, t.anti_cheat_settings = e.anti_cheat_settings)
    (hr : StepReachable e e') (i : ℕ) (t t' : Task)
    (ht : e.tasks.get? i = some t) (ht' : e'.tasks.get? i = some t')
    (hin : ¬ t.is_active e.user_reputation) :
    ¬ t'.is_active e'.user_reputation :=
  (stepReachable_inactive_aux hr hsh).2.2.2 i t t' ht ht' hin

theorem c3_witness :
    ¬ taskDead.is_active ({ envC3 with last_action := some (0 : ℤ) }).user_reputation := by
  have hreach : StepReachable envC3 { envC3 with last_action := some (0 : ℤ) } :=
    StepReachable.tail _ _ _ 0 _ _ _ _ (StepReachable.refl envC3) rfl
  refine c3_inactive_never_reactivates envC3 _ ?_ hreach 0 taskDead taskDead
    rfl rfl (by decide)
  intro t ht
  have he : envC3.tasks = [taskDead] := rfl
  rw [he, List.mem_singleton] at ht
  rw [ht]
  exact rfl

theorem pyIdx_nonneg (l : List α) {i : ℤ} (h : 0 ≤ i) : pyIdx l i = i.toNat := by
  unfold pyIdx
  rw [if_pos h]

theorem step_ok_done_iff {e : UserModelEnv} {a : ℤ} {obs : List ℚ} {r : ℚ} {d : Bool}
    {info : Info} {e' : UserModelEnv} (h : e.step a = .ok obs r d info e') :
    d = true ↔ (a = 0 ∨ e.user_properties.time_budget < e.overall_time_spent) := by
  simp only [UserModelEnv.step, UserModelEnv.ACTION_QUIT] at h
  split at h
  next hq =>
    simp only [StepOutcome.ok.injEq] at h
    exact ⟨fun _ => Or.inl hq, fun _ => h.2.2.1.symm⟩
  next hq =>
    split at h
    next htm =>
      simp only [StepOutcome.ok.injEq] at h
      exact ⟨fun _ => Or.inr htm, fun _ => h.2.2.1.symm⟩
    next htm =>
      split at h
      next heq => exact absurd h (by simp)
      next ct heq =>
        have hd : d = false := by
          split at h
          next ha =>
            exact (stepAnswer_ok_fields { e with last_action := some a } heq h).2.2.2.2.2.2.2
          next ha =>
            split at h
            next hsw => exact (stepSwitch_ok_fields h).2.2.2.2.2.2.2
            next hsw => exact absurd h (by simp)
        subst hd
        constructor
        · intro hdt
          exact absurd hdt (by simp)
        · intro hcon
          rcases hcon with h1 | h2
          · exact absurd h1 hq
          · exact absurd h2 htm

/-- C4: `receive_answer` requires `mode` to be set and fails otherwise;
under that precondition (with the current instance present, which the mode
being set guarantees in every reachable task, since both are assigned
together by `give_new_instance`) it increments `instance_counter` by one
and: in quality-control mode it increments `qa_false_counter` and returns
`reputation_punishment` on a mismatch with the true label, and returns
`reputation_bonus` leaving `qa_false_counter` untouched on a match; in
label mode it increments `real_instance_counter` and returns 0 regardless
of correctness.  `Task` holds no reputation field: the function only
returns the delta, it never modifies the worker's reputation. -/
theorem c4_receive_answer (t : Task) (answer : ℕ) :
    (t.mode = none → t.receive_answer answer = none) ∧
    (∀ m inst, t.mode = some m → t.current_instance = some inst →
      ((m = Mode.quality_control →
        (answer ≠ inst.true_label →
          t.receive_answer answer = some (t.anti_cheat_settings.reputation_punishment,
            { t with instance_counter := t.instance_counter + 1,
                     qa_false_counter := t.qa_false_counter + 1,
                     last_response_type := "qa_incorrect" })) ∧
        (answer = inst.true_label →
          t.receive_answer answer = some (t.anti_cheat_settings.reputation_bonus,
            { t with instance_counter := t.instance_counter + 1,
                     last_response_type := "qa_correct" }))) ∧
      (m = Mode.label →
        t.receive_answer answer = some (0,
          { t with instance_counter := t.instance_counter + 1,
                   real_instance_counter := t.real_instance_counter + 1,
                   last_response_type :=
                     if answer ≠ inst.true_label then "incorrect" else "correct" })))) := by
  constructor
  · intro hm
    simp [Task.receive_answer, hm]
  · intro m inst hm hi
    refine ⟨?_, ?_⟩
    · intro hqc
      subst hqc
      constructor
      · intro hne
        simp [Task.receive_answer, hm, hi, hne]
      · intro heqa
        simp [Task.receive_answer, hm, hi, heqa]
    · intro hlb
      subst hlb
      by_cases hne : answer = inst.true_label <;> simp [Task.receive_answer, hm, hi, hne]

theorem c4_receive_answer_witness :
    taskFresh.mode = none ∧ taskFresh.receive_answer 0 = none ∧
    taskQC.receive_answer 5 = some (acsEx.reputation_punishment,
      { taskQC with instance_counter := 1, qa_false_counter := 1,
                    last_response_type := "qa_incorrect" }) ∧
    taskLB.receive_answer 3 = some (0,
      { taskLB with instance_counter := 1, real_instance_counter := 1,
                    last_response_type := "correct" }) := by
  refine ⟨rfl, (c4_receive_answer taskFresh 0).1 rfl, ?_, ?_⟩
  · exact ((((c4_receive_answer taskQC 5).2 Mode.quality_control { true_label := 3 }
      rfl rfl).1) rfl).1 (by decide)
  · exact ((c4_receive_answer taskLB 3).2 Mode.label { true_label := 3 } rfl rfl).2 rfl

/-- C5: `step` returns `done = true` exactly when the action is quit (0) or
the previously accumulated `overall_time_spent` exceeds `time_budget`, quit
being checked first; on quit the reward is
`(time_budget - overall_time_spent) * time_sensitivity` with
`end_reason = "user_quit"`, on budget exhaustion with a non-quit action the
reward is 0 with `end_reason = "end_of_user_time_budget"`, and in both
cases no state other than `last_action` changes. -/
theorem c5_termination (e : UserModelEnv) (a : ℤ) :
    (e.step 0 = .ok ({ e with last_action := some 0 }).create_observation
        ((e.user_properties.time_budget - e.overall_time_spent) *
          e.user_properties.time_sensitivity)
        true { end_reason := some "user_quit" } { e with last_action := some 0 }) ∧
    (a ≠ 0 → e.user_properties.time_budget < e.overall_time_spent →
      e.step a = .ok ({ e with last_action := some a }).create_observation 0 true
        { end_reason := some "end_of_user_time_budget" } { e with last_action := some a }) ∧
    (∀ obs r d info e', e.step a = .ok obs r d info e' →
      (d = true ↔ a = 0 ∨ e.user_properties.time_budget < e.overall_time_spent)) := by
  refine ⟨rfl, ?_, ?_⟩
  · intro ha htm
    simp only [UserModelEnv.step, UserModelEnv.ACTION_QUIT]
    rw [if_neg ha, if_pos htm]
  · intro obs r d info e' h
    exact step_ok_done_iff h

theorem c5_termination_witness :
    ((10 : ℚ) - 3) * 2 = 14 ∧
    envC5.step 0 = .ok ({ envC5 with last_action := some 0 }).create_observation
      (((10 : ℚ) - 3) * 2) true { end_reason := some "user_quit" }
      { envC5 with last_action := some 0 } ∧
    envC5b.step 1 = .ok ({ envC5b with last_action := some 1 }).create_observation 0 true
      { end_reason := some "end_of_user_time_budget" } { envC5b with last_action := some 1 } := by
  refine ⟨by norm_num, ?_, ?_⟩
  · exact (c5_termination envC5 1).1
  · exact (c5_termination envC5b 1).2.1 (by norm_num)
      (by norm_num [envC5b, envC5, upEx])

/-- C7: `create_observation` returns a vector of length `5 * num_tasks + 4`
whose entries are, for each task slot in order: payout; `instance_counter`
if `is_active(user_reputation)` holds else `-1`; then the three property
fields if `instance_counter > 0` else `(-1, -1, -1)`; followed by
`current_task_idx`, `user_reputation`, `time_budget`, `overall_time_spent`. -/
theorem c7_observation_encoding (e : UserModelEnv) :
    e.create_observation = e.tasks.flatMap (taskObsBlock e.user_reputation) ++
      [(e.current_task_idx : ℚ), e.user_reputation, e.user_properties.time_budget,
       e.overall_time_spent] ∧
    e.create_observation.length = 5 * e.tasks.length + 4 ∧
    (e.tasks.length = e.num_tasks →
      e.create_observation.length = 5 * e.num_tasks + 4) := by
  have h1 := create_observation_eq e
  have h2 : e.create_observation.length = 5 * e.tasks.length + 4 := by
    rw [h1, List.length_append, flatMap_block_length]
    rfl
  exact ⟨h1, h2, fun hn => by rw [h2, hn]⟩

theorem c7_observation_encoding_witness :
    envC9.tasks.length = envC9.num_tasks ∧
    envC9.create_observation.length = 5 * envC9.num_tasks + 4 :=
  ⟨rfl, (c7_observation_encoding envC9).2.2 rfl⟩

/-- C8 (amended): when a `step` call causes a task to become inactive, the
observation returned by that same `step` call already reports `-1` in the
task's rounds field: the observation is computed from the post-update state,
so `is_active` is re-evaluated with the new counters and reputation and no
stale frame occurs. -/
theorem c8_no_stale_frame {e : UserModelEnv} {a : ℤ} {obs : List ℚ} {r : ℚ} {d : Bool}
    {info : Info} {e' : UserModelEnv}
    (h : e.step a = .ok obs r d info e') {i : ℕ} {t' : Task}
    (ht' : e'.tasks.get? i = some t')
    (hin : ¬ t'.is_active e'.user_reputation) :
    obs.get? (5 * i + 1) = some (-1) := by
  obtain ⟨_, _, _, _, _, _, hobs⟩ := step_ok_fields h
  have hi : i < e'.tasks.length := lget_some_lt ht'
  rw [hobs, create_observation_eq,
      List.get?_append (by rw [flatMap_block_length]; omega),
      flatMap_block_get _ _ i 1 (by omega), ht']
  exact taskObsBlock_get_one hin

/-- C8 counterexample: the claim as stated is false.  In `envC8` the
selected task is active before the step, the step's wrong gold answer
deactivates it (`qa_false_counter` reaches `qa_false_max = 1`), and the
observation returned by that same step call already reports `-1` in the
task's rounds field even though the task's `instance_counter` is 1. -/
theorem c8_counterexample :
    taskC8.is_active envC8.user_reputation ∧
    ∃ obs r d info e' t',
      envC8.step 1 = .ok obs r d info e' ∧
      e'.tasks.get? 0 = some t' ∧
      t'.instance_counter = 1 ∧
      ¬ t'.is_active e'.user_reputation ∧
      obs.get? 1 = some (-1) ∧
      obs.get? 1 ≠ some ((t'.instance_counter : ℚ)) := by
  refine ⟨by decide, envC8After.create_observation,
    envC8.user_properties.payout_sensitivity * taskC8.properties.payout, false, {},
    envC8After, taskC8After, rfl, rfl, rfl, by decide, by decide, by decide⟩

theorem c8_no_stale_frame_witness :
    (envC8After.create_observation).get? (5 * 0 + 1) = some (-1) := by
  have hstep : envC8.step 1 = .ok envC8After.create_observation
      (envC8.user_properties.payout_sensitivity * taskC8.properties.payout) false {}
      envC8After := rfl
  exact c8_no_stale_frame hstep rfl (by decide)

/-- C9: a non-terminating answer action (1 or 2) with no task selected or
with the selected task inactive yields reward `-1`, done `false`, charges
exactly `random_answer_time`, and changes nothing else (tasks, reputation,
`current_task_idx` and the generator are untouched; only `last_action` and
`overall_time_spent` change). -/
theorem c9_answer_no_task (e : UserModelEnv) (a : ℤ) (ct : Task)
    (ha : a = 1 ∨ a = 2)
    (htm : ¬ e.user_properties.time_budget < e.overall_time_spent)
    (hct : pyGet e.tasks e.current_task_idx = some ct)
    (hno : e.current_task_idx = -1 ∨ ¬ ct.is_active e.user_reputation) :
    e.step a = .ok
      ({ e with
          last_action := some a,
          overall_time_spent :=
            e.overall_time_spent + e.user_properties.random_answer_time }).create_observation
      (-1) false {}
      { e with
          last_action := some a,
          overall_time_spent :=
            e.overall_time_spent + e.user_properties.random_answer_time } := by
  simp only [UserModelEnv.step, UserModelEnv.ACTION_QUIT, UserModelEnv.ACTION_ANS_RND,
             UserModelEnv.ACTION_ANS_INTENT]
  rw [if_neg (by rcases ha with rfl | rfl <;> norm_num), if_neg htm]
  split
  next heq =>
    rw [heq] at hct
    cases hct
  next ct1 heq =>
    rw [heq] at hct
    cases hct
    rw [if_pos ha]
    simp only [UserModelEnv.stepAnswer]
    rw [if_pos hno]

theorem c9_answer_no_task_witness :
    envC9.step 1 = .ok
      ({ envC9 with
          last_action := some 1,
          overall_time_spent :=
            envC9.overall_time_spent + envC9.user_properties.random_answer_time
        }).create_observation
      (-1) false {}
      { envC9 with
          last_action := some 1,
          overall_time_spent :=
            envC9.overall_time_spent + envC9.user_properties.random_answer_time } :=
  c9_answer_no_task envC9 1 taskQC (Or.inl rfl) (by norm_num [envC9, envC5, upEx]) rfl
    (Or.inl rfl)

/-- C6: a non-terminating switch action within range charges exactly
`switch_task_time` in every branch and returns `done = false`: switching to
an inactive task yields reward `-1`, clears the selection to `-1` and draws
no instance; switching to the already-selected active task yields reward
`-1` but still draws a new instance; switching to a different active task
yields reward `0`, selects it and draws a new instance. -/
theorem c6_switch_contract (e : UserModelEnv) (a : ℤ)
    (htm : ¬ e.user_properties.time_budget < e.overall_time_spent)
    (ha : 3 ≤ a) (_hb : a - 3 < (e.tasks.length : ℤ))
    (ct : Task) (hct : pyGet e.tasks e.current_task_idx = some ct)
    (target : Task) (htar : e.tasks.get? (a - 3).toNat = some target) :
    (¬ target.is_active e.user_reputation →
      e.step a = .ok (switchFailEnv e a).create_observation (-1) false {} (switchFailEnv e a)) ∧
    (target.is_active e.user_reputation → e.current_task_idx = a - 3 →
      e.step a = .ok (switchResultEnv e a target).create_observation (-1) false {}
        (switchResultEnv e a target)) ∧
    (target.is_active e.user_reputation → e.current_task_idx ≠ a - 3 →
      e.step a = .ok (switchResultEnv e a target).create_observation 0 false {}
        (switchResultEnv e a target)) := by
  have hge : (0 : ℤ) ≤ a - 3 := by omega
  have hred : e.step a = UserModelEnv.stepSwitch { e with last_action := some a } a := by
    simp only [UserModelEnv.step, UserModelEnv.ACTION_QUIT, UserModelEnv.ACTION_ANS_RND,
               UserModelEnv.ACTION_ANS_INTENT, UserModelEnv.SWITCH_TASK0]
    rw [if_neg (by omega : ¬ a = 0), if_neg htm]
    split
    next heq =>
      rw [heq] at hct
      cases hct
    next ct1 heq =>
      rw [if_neg (by omega : ¬ (a = 1 ∨ a = 2)), if_pos ha]
  refine ⟨?_, ?_, ?_⟩
  · intro hin
    rw [hred]
    simp only [UserModelEnv.stepSwitch, UserModelEnv.SWITCH_TASK0]
    split
    next heq =>
      rw [pyGet_eq_get _ hge, htar] at heq
      cases heq
    next t1 heq =>
      rw [pyGet_eq_get _ hge, htar] at heq
      cases heq
      rw [if_pos hin]
      rfl
  · intro hact hsame
    rw [hred]
    simp only [UserModelEnv.stepSwitch, UserModelEnv.SWITCH_TASK0]
    split
    next heq =>
      rw [pyGet_eq_get _ hge, htar] at heq
      cases heq
    next t1 heq =>
      rw [pyGet_eq_get _ hge, htar] at heq
      cases heq
      rw [if_neg (not_not_intro hact), if_pos hsame, pyIdx_nonneg _ hge]
      rfl
  · intro hact hdiff
    rw [hred]
    simp only [UserModelEnv.stepSwitch, UserModelEnv.SWITCH_TASK0]
    split
    next heq =>
      rw [pyGet_eq_get _ hge, htar] at heq
      cases heq
    next t1 heq =>
      rw [pyGet_eq_get _ hge, htar] at heq
      cases heq
      rw [if_neg (not_not_intro hact), if_neg hdiff, pyIdx_nonneg _ hge]
      rfl

theorem c6_switch_contract_witness :
    envC6.step 4 = .ok (switchResultEnv envC6 4 taskQC).create_observation 0 false {}
      (switchResultEnv envC6 4 taskQC) :=
  (c6_switch_contract envC6 4 (by norm_num [envC6, envC5, upEx]) (by norm_num)
    (by norm_num [envC6, envC5]) taskQC rfl taskQC rfl).2.2 (by decide) (by decide)

/-! Lemmas for the totality analysis of `step` (C10). -/

theorem isOkB_exists {o : StepOutcome} (h : o.isOkB = true) :
    ∃ obs r d info e', o = .ok obs r d info e' := by
  cases o with
  | ok obs r d info e' => exact ⟨obs, r, d, info, e', rfl⟩
  | error => simp [StepOutcome.isOkB] at h
  | noneResult => simp [StepOutcome.isOkB] at h

theorem stepAnswerFinish_isOkB {e : UserModelEnv} {ct : Task} {ts rwd : ℚ} {ans : ℕ}
    {r : Rng} (hm : ct.mode.isSome) (hi : ct.current_instance.isSome) :
    (e.stepAnswerFinish ct ts ans rwd r).isOkB = true := by
  obtain ⟨q, t', hrc⟩ := receive_answer_isSome ct ans hm hi
  simp only [UserModelEnv.stepAnswerFinish]
  split
  next heq =>
    rw [heq] at hrc
    cases hrc
  next rc heq => split <;> rfl

theorem stepAnswer_isOkB {e : UserModelEnv} {a : ℤ} {ct : Task}
    (hmode : ct.is_active e.user_reputation → ct.mode.isSome ∧ ct.current_instance.isSome) :
    (e.stepAnswer a ct).isOkB = true := by
  simp only [UserModelEnv.stepAnswer, UserModelEnv.ACTION_ANS_RND]
  split
  · rfl
  next hno =>
    push_neg at hno
    obtain ⟨hm, hi⟩ := hmode hno.2
    split
    · exact stepAnswerFinish_isOkB hm hi
    · split
      · split
        next heq =>
          rw [heq] at hi
          simp at hi
        next inst heq => exact stepAnswerFinish_isOkB hm hi
      · exact stepAnswerFinish_isOkB hm hi

theorem stepSwitch_isOkB {e : UserModelEnv} {a : ℤ}
    (h3 : 3 ≤ a) (hb : a - 3 < (e.tasks.length : ℤ)) :
    (e.stepSwitch a).isOkB = true := by
  have hge : (0 : ℤ) ≤ a - 3 := by omega
  obtain ⟨target, htar⟩ : ∃ t, pyGet e.tasks (a - 3) = some t := by
    rw [pyGet_eq_get _ hge]
    exact lget_lt_some (by omega)
  simp only [UserModelEnv.stepSwitch, UserModelEnv.SWITCH_TASK0]
  split
  next heq =>
    rw [heq] at htar
    cases htar
  next t1 heq => split <;> rfl

theorem stepSwitch_out_of_range {e : UserModelEnv} {a : ℤ}
    (hb : (e.tasks.length : ℤ) ≤ a - 3) : e.stepSwitch a = .error := by
  have hnone : pyGet e.tasks (a - 3) = none := by
    by_cases hge : (0 : ℤ) ≤ a - 3
    · rw [pyGet_eq_get _ hge]
      exact lget_ge_none (by omega)
    · unfold pyGet
      rw [if_neg hge, if_neg (by omega)]
  simp only [UserModelEnv.stepSwitch, UserModelEnv.SWITCH_TASK0]
  split
  next heq => rfl
  next t1 heq =>
    rw [hnone] at heq
    cases heq

theorem pyGet_valid {l : List α} {i : ℤ} (hne : l ≠ [])
    (hidx : i = -1 ∨ (0 ≤ i ∧ i < (l.length : ℤ))) : ∃ x, pyGet l i = some x := by
  have hlp : 0 < l.length := List.length_pos.mpr hne
  rcases hidx with rfl | ⟨h0, h1⟩
  · unfold pyGet
    rw [if_neg (by omega), if_pos (by omega)]
    exact lget_lt_some (by omega)
  · rw [pyGet_eq_get _ h0]
    exact lget_lt_some (by omega)

/-- C10: `step` is total exactly over the valid action space.  Under the
environment's own bookkeeping (`tasks` matching `num_tasks`, a non-empty
task list, a valid `current_task_idx`, and the selected active task holding
a mode and an instance -- all of which hold in reachable states): every
action in `{0, ..., num_tasks + 2}` returns an
`(observation, reward, done, info)` result (the read of
`tasks[current_task_idx]` before the `-1` check resolves to the last task
under Python indexing and never fails); for `action ≥ num_tasks + 3` in a
non-terminating state the switch branch's `tasks[action - 3]` access is out
of bounds and `step` raises; for `action < 0` in a non-terminating state no
branch applies and `step` returns Python's implicit `None`.  No branch
rejects an out-of-range action with an explicit invalid-action error. -/
theorem c10_action_space (e : UserModelEnv) (a : ℤ)
    (hn : e.tasks.length = e.num_tasks)
    (hne : e.tasks ≠ [])
    (hidx : e.current_task_idx = -1 ∨
      (0 ≤ e.current_task_idx ∧ e.current_task_idx < (e.tasks.length : ℤ)))
    (hmode : ∀ t, pyGet e.tasks e.current_task_idx = some t →
      t.is_active e.user_reputation → t.mode.isSome ∧ t.current_instance.isSome) :
    ((0 ≤ a ∧ a ≤ (e.num_tasks : ℤ) + 2) →
      ∃ obs r d info e', e.step a = .ok obs r d info e') ∧
    (¬ e.user_properties.time_budget < e.overall_time_spent → (e.num_tasks : ℤ) + 3 ≤ a →
      e.step a = .error) ∧
    (¬ e.user_properties.time_budget < e.overall_time_spent → a < 0 →
      e.step a = .noneResult) := by
  obtain ⟨ct, hct⟩ := pyGet_valid hne hidx
  refine ⟨?_, ?_, ?_⟩
  · rintro ⟨h0, h2⟩
    by_cases ha0 : a = 0
    · subst ha0
      exact ⟨_, _, _, _, _, rfl⟩
    by_cases htm : e.user_properties.time_budget < e.overall_time_spent
    · have hstep : e.step a = .ok ({ e with last_action := some a }).create_observation 0 true
          { end_reason := some "end_of_user_time_budget" } { e with last_action := some a } := by
        simp only [UserModelEnv.step, UserModelEnv.ACTION_QUIT]
        rw [if_neg ha0, if_pos htm]
      exact ⟨_, _, _, _, _, hstep⟩
    by_cases ha12 : a = 1 ∨ a = 2
    · have hred : e.step a =
          UserModelEnv.stepAnswer { e with last_action := some a } a ct := by
        simp only [UserModelEnv.step, UserModelEnv.ACTION_QUIT, UserModelEnv.ACTION_ANS_RND,
                   UserModelEnv.ACTION_ANS_INTENT, UserModelEnv.SWITCH_TASK0]
        rw [if_neg ha0, if_neg htm]
        split
        next heq =>
          rw [heq] at hct
          cases hct
        next ct1 heq =>
          rw [heq] at hct
          cases hct
          rw [if_pos ha12]
      rw [hred]
      exact isOkB_exists (stepAnswer_isOkB (fun hact => hmode ct hct hact))
    · have h3 : 3 ≤ a := by omega
      have hred : e.step a =
          UserModelEnv.stepSwitch { e with last_action := some a } a := by
        simp only [UserModelEnv.step, UserModelEnv.ACTION_QUIT, UserModelEnv.ACTION_ANS_RND,
                   UserModelEnv.ACTION_ANS_INTENT, UserModelEnv.SWITCH_TASK0]
        rw [if_neg ha0, if_neg htm]
        split
        next heq =>
          rw [heq] at hct
          cases hct
        next ct1 heq =>
          rw [if_neg ha12, if_pos h3]
      rw [hred]
      refine isOkB_exists (stepSwitch_isOkB h3 ?_)
      have hn' : ({ e with last_action := some a } : UserModelEnv).tasks.length =
          e.num_tasks := hn
      omega
  · intro htm hbig
    have h3 : 3 ≤ a := by omega
    have hred : e.step a =
        UserModelEnv.stepSwitch { e with last_action := some a } a := by
      simp only [UserModelEnv.step, UserModelEnv.ACTION_QUIT, UserModelEnv.ACTION_ANS_RND,
                 UserModelEnv.ACTION_ANS_INTENT, UserModelEnv.SWITCH_TASK0]
      rw [if_neg (by omega : ¬ a = 0), if_neg htm]
      split
      next heq =>
        rw [heq] at hct
        cases hct
      next ct1 heq =>
        rw [if_neg (by omega : ¬ (a = 1 ∨ a = 2)), if_pos h3]
    rw [hred]
    refine stepSwitch_out_of_range ?_
    have hn' : ({ e with last_action := some a } : UserModelEnv).tasks.length =
        e.num_tasks := hn
    omega
  · intro htm hneg
    simp only [UserModelEnv.step, UserModelEnv.ACTION_QUIT, UserModelEnv.ACTION_ANS_RND,
               UserModelEnv.ACTION_ANS_INTENT, UserModelEnv.SWITCH_TASK0]
    rw [if_neg (by omega : ¬ a = 0), if_neg htm]
    split
    next heq =>
      rw [heq] at hct
      cases hct
    next ct1 heq =>
      rw [if_neg (by omega : ¬ (a = 1 ∨ a = 2)), if_neg (by omega : ¬ 3 ≤ a)]

theorem c10_action_space_witness :
    (∃ obs r d info e', envC10.step 1 = .ok obs r d info e') ∧
    envC10.step 4 = .error ∧
    envC10.step (-1) = .noneResult := by
  have hmode : ∀ t, pyGet envC10.tasks envC10.current_task_idx = some t →
      t.is_active envC10.user_reputation → t.mode.isSome ∧ t.current_instance.isSome := by
    intro t ht _
    have hpg : pyGet envC10.tasks envC10.current_task_idx = some taskQC := rfl
    rw [hpg] at ht
    cases ht
    exact ⟨rfl, rfl⟩
  have hne : envC10.tasks ≠ [] := by simp [envC10, envC5]
  have hidx : envC10.current_task_idx = -1 ∨
      (0 ≤ envC10.current_task_idx ∧ envC10.current_task_idx < (envC10.tasks.length : ℤ)) :=
    Or.inr ⟨by norm_num [envC10, envC5], by norm_num [envC10, envC5]⟩
  refine ⟨(c10_action_space envC10 1 rfl hne hidx hmode).1
      ⟨by norm_num, by norm_num [UserModelEnv.num_tasks, envC10, envC5, dsEx]⟩,
    (c10_action_space envC10 4 rfl hne hidx hmode).2.1
      (by norm_num [envC10, envC5, upEx])
      (by norm_num [UserModelEnv.num_tasks, envC10, envC5, dsEx]),
    (c10_action_space envC10 (-1) rfl hne hidx hmode).2.2
      (by norm_num [envC10, envC5, upEx]) (by norm_num)⟩

end CrowdSim
